import Mathlib

/-!
Shallow embedding of the MediaLibraryCleaner core (Python) in Lean 4.

Sources embedded:
  * `src/src/scanner/scanner.py`  — fingerprinting (`_calculate_hash`),
    filename identity extraction (`_extract_title` / `_extract_year` /
    `_extract_season` / `_extract_episode`), media-track extraction
    (`_get_media_info`).
  * `src/src/analyzer/analyzer.py` — duplicate detection (`find_duplicates`,
    exact pass), `find_low_resolution`, `find_quality_issues`,
    `find_missing_episodes`.
  * `src/cli.py`                   — the `scan` command's upsert-by-path loop.
  * `src/src/database.py`          — the `MediaFile.resolution` property.

Conventions: Python `None` becomes `Option.none`; Python-falsy string/number
fields that the code tests with truthiness are modelled as `Option` with
`none` for the falsy values; byte strings become `List Nat`; the xxh64 digest
is abstracted as an arbitrary function `H` of the fed byte stream, since every
claim about the fingerprint concerns only which bytes are fed.
-/

/-! ### Generic helpers -/

/-- Does `hay` start with `needle`? (Helper for the Python `in` substring
test.) -/
def startsWithL : List Char → List Char → Bool
  | [], _ => true
  | _ :: _, [] => false
  | n :: ns, h :: hs => n == h && startsWithL ns hs

/-- Python's `needle in hay` on strings: `needle` occurs contiguously in
`hay`. -/
def hasSubL (needle : List Char) : List Char → Bool
  | [] => needle.isEmpty
  | h :: hs => startsWithL needle (h :: hs) || hasSubL needle hs

/-- Insertion-order deduplication: the key list a Python `dict` built by
repeated insertion iterates over. -/
def firstAppear {α : Type} [BEq α] (l : List α) : List α :=
  l.foldl (fun acc x => if acc.contains x then acc else acc ++ [x]) []

/-- `min` of a list of `Int`s, as Python's `min(non_empty_collection)`
(`0` is a dummy for the empty case the code never reaches). -/
def minL : List Int → Int
  | [] => 0
  | x :: xs => xs.foldl min x

/-- `max` of a list of `Int`s, as Python's `max(non_empty_collection)`. -/
def maxL : List Int → Int
  | [] => 0
  | x :: xs => xs.foldl max x

/-- Python's `range(a, b + 1)` over integers, as a list. -/
def intRange (a b : Int) : List Int :=
  (List.range (b + 1 - a).toNat).map (fun (k : Nat) => a + (k : Int))

/-! ### Fingerprinter — `MediaScanner._calculate_hash` (scanner.py:69-85)

    hasher.update(str(file_size).encode())
    with open(file_path, 'rb') as f:
        hasher.update(f.read(chunk_size))
        if file_size > chunk_size * 2:
            f.seek(-chunk_size, 2)
            hasher.update(f.read(chunk_size))

with `chunk_size = 8192`.  A file is its byte content (`List Nat`); its size
is its length.  The xxh64 state is a pure function of the concatenation of
all bytes fed to `update`, so the digest is `H` applied to that stream for
the (fixed, deterministic) digest function `H`; we quantify over `H`. -/

/-- `str(file_size).encode()`: the ASCII decimal bytes of the size. -/
def sizeSeed (n : Nat) : List Nat :=
  (toString n).data.map Char.toNat

/-- The exact byte stream `_calculate_hash` feeds to the xxh64 hasher. -/
def hashInput (content : List Nat) : List Nat :=
  sizeSeed content.length
    ++ content.take 8192
    ++ (if content.length > 8192 * 2 then content.drop (content.length - 8192) else [])

/-- `_calculate_hash`, with the xxh64 digest abstracted as `H`. -/
def fingerprint (H : List Nat → String) (content : List Nat) : String :=
  H (hashInput content)

/-! ### Database — `MediaFile.resolution` property (database.py:37-47)

    if self.resolution_height >= 2160: return "4K"
    elif self.resolution_height >= 1080: return "1080p"
    elif self.resolution_height >= 720: return "720p"
    elif self.resolution_height >= 480: return "480p"
    return "SD"

`resolution_height` is a nullable integer column; when it is `None` the first
comparison `None >= 2160` raises `TypeError`.  We model the raising outcome
as `none` and a returned label as `some`. -/

/-- The `resolution` display property, on the raw height column. -/
def resolutionLabel : Option Int → Option String
  | none => none
  | some h =>
      some (if h ≥ 2160 then "4K"
            else if h ≥ 1080 then "1080p"
            else if h ≥ 720 then "720p"
            else if h ≥ 480 then "480p"
            else "SD")

/-! ### Filename identity extraction — scanner.py:133-159

    def _extract_title(self, file_path):
        name = file_path.stem
        for pattern in [r'\d{4}', r'[Ss]\d{2}[Ee]\d{2}', r'\[.*?\]', r'\(.*?\)']:
            name = re.split(pattern, name)[0]
        return name.replace('.', ' ').replace('_', ' ').strip()

    _extract_year:    re.search(r'(19|20)\d{2}', stem) → int(match.group())
    _extract_season:  re.search(r'[Ss](\d{1,2})', stem) → int(group(1))
    _extract_episode: re.search(r'[Ee](\d{1,3})', stem) → int(group(1))

`re.split(p, s)[0]` is the prefix of `s` before the leftmost position where
`p` matches; `re.search` finds the leftmost match.  `\d` is modelled as an
ASCII digit and `.` (which appears only inside the lazy bracket/parenthesis
tags, where only the match's start position matters) as any character —
filename stems contain no newlines. -/

/-- Does `\d{4}` match at offset `i` of `s`? -/
def digit4At (s : List Char) (i : Nat) : Bool :=
  match s.drop i with
  | a :: b :: c :: d :: _ => a.isDigit && b.isDigit && c.isDigit && d.isDigit
  | _ => false

/-- Does `[Ss]\d{2}[Ee]\d{2}` match at offset `i` of `s`? -/
def seTokenAt (s : List Char) (i : Nat) : Bool :=
  match s.drop i with
  | a :: b :: c :: d :: e :: f :: _ =>
      (a == 'S' || a == 's') && b.isDigit && c.isDigit
        && (d == 'E' || d == 'e') && e.isDigit && f.isDigit
  | _ => false

/-- Does `\[.*?\]` match starting at offset `i` of `s`? (A match starts at a
`[` that has some later `]`.) -/
def bracketAt (s : List Char) (i : Nat) : Bool :=
  match s.drop i with
  | '[' :: rest => rest.contains ']'
  | _ => false

/-- Does `\(.*?\)` match starting at offset `i` of `s`? -/
def parenAt (s : List Char) (i : Nat) : Bool :=
  match s.drop i with
  | '(' :: rest => rest.contains ')'
  | _ => false

/-- Does `(19|20)\d{2}` match at offset `i` of `s`? -/
def yearAt (s : List Char) (i : Nat) : Bool :=
  match s.drop i with
  | a :: b :: c :: d :: _ =>
      ((a == '1' && b == '9') || (a == '2' && b == '0')) && c.isDigit && d.isDigit
  | _ => false

/-- Does `[Ss]\d` (the mandatory part of `[Ss](\d{1,2})`) match at offset
`i`? -/
def sTokenAt (s : List Char) (i : Nat) : Bool :=
  match s.drop i with
  | a :: b :: _ => (a == 'S' || a == 's') && b.isDigit
  | _ => false

/-- Does `[Ee]\d` (the mandatory part of `[Ee](\d{1,3})`) match at offset
`i`? -/
def eTokenAt (s : List Char) (i : Nat) : Bool :=
  match s.drop i with
  | a :: b :: _ => (a == 'E' || a == 'e') && b.isDigit
  | _ => false

/-- Leftmost offset `≥ i` at which `p` matches, scanning `fuel` offsets:
the position search of `re.search` / `re.split`. -/
def firstMatchAux (p : List Char → Nat → Bool) (s : List Char) : Nat → Nat → Option Nat
  | 0, _ => none
  | fuel + 1, i => if p s i then some i else firstMatchAux p s fuel (i + 1)

/-- Leftmost offset at which `p` matches in `s`. -/
def firstMatch (p : List Char → Nat → Bool) (s : List Char) : Option Nat :=
  firstMatchAux p s s.length 0

/-- `re.split(pattern, s)[0]`: the prefix of `s` before the leftmost match of
the pattern (all of `s` when the pattern does not match). -/
def cutAt (p : List Char → Nat → Bool) (s : List Char) : List Char :=
  match firstMatch p s with
  | some i => s.take i
  | none => s

/-- The successive `re.split(...)[0]` truncations of `_extract_title`, in the
source's pattern order. -/
def titleCore (s : List Char) : List Char :=
  cutAt parenAt (cutAt bracketAt (cutAt seTokenAt (cutAt digit4At s)))

/-- `.replace('.', ' ').replace('_', ' ')`. -/
def spaceify (s : List Char) : List Char :=
  s.map (fun c => if c == '.' || c == '_' then ' ' else c)

/-- Python `str.strip()`: drop whitespace from both ends. -/
def stripEnds (s : List Char) : List Char :=
  ((s.dropWhile Char.isWhitespace).reverse.dropWhile Char.isWhitespace).reverse

/-- `MediaScanner._extract_title` on a filename stem. -/
def extractTitle (stem : String) : String :=
  ⟨stripEnds (spaceify (titleCore stem.data))⟩

/-- Numeric value of an ASCII digit. -/
def digitVal (c : Char) : Nat := c.toNat - '0'.toNat

/-- Value of the 4-digit year match at offset `i` (`0` when no window —
unreachable at a match position). -/
def yearValAt (s : List Char) (i : Nat) : Nat :=
  match s.drop i with
  | a :: b :: c :: d :: _ =>
      1000 * digitVal a + 100 * digitVal b + 10 * digitVal c + digitVal d
  | _ => 0

/-- `MediaScanner._extract_year` on a filename stem. -/
def extractYear (stem : String) : Option Nat :=
  match firstMatch yearAt stem.data with
  | some i => some (yearValAt stem.data i)
  | none => none

/-- Value of the greedy `(\d{1,2})` group after the `[Ss]` at offset `i`. -/
def seasonValAt (s : List Char) (i : Nat) : Nat :=
  match s.drop i with
  | _ :: b :: c :: _ => if c.isDigit then 10 * digitVal b + digitVal c else digitVal b
  | _ :: b :: _ => digitVal b
  | _ => 0

/-- `MediaScanner._extract_season` on a filename stem. -/
def extractSeason (stem : String) : Option Nat :=
  match firstMatch sTokenAt stem.data with
  | some i => some (seasonValAt stem.data i)
  | none => none

/-- Value of the greedy `(\d{1,3})` group after the `[Ee]` at offset `i`. -/
def episodeValAt (s : List Char) (i : Nat) : Nat :=
  match s.drop i with
  | _ :: b :: c :: d :: _ =>
      if c.isDigit then
        if d.isDigit then 100 * digitVal b + 10 * digitVal c + digitVal d
        else 10 * digitVal b + digitVal c
      else digitVal b
  | _ :: b :: c :: _ => if c.isDigit then 10 * digitVal b + digitVal c else digitVal b
  | _ :: b :: _ => digitVal b
  | _ => 0

/-- `MediaScanner._extract_episode` on a filename stem. -/
def extractEpisode (stem : String) : Option Nat :=
  match firstMatch eTokenAt stem.data with
  | some i => some (episodeValAt stem.data i)
  | none => none

/-- The title rule as the spec words it (for comparison with `extractTitle`):
truncate the stem once, at the lexically first match among the four
patterns. -/
def titleSpecCut (s : List Char) : List Char :=
  match ([firstMatch digit4At s, firstMatch seTokenAt s,
          firstMatch bracketAt s, firstMatch parenAt s].filterMap id).min? with
  | some i => s.take i
  | none => s

/-- Title per the spec's single-truncation wording. -/
def titleSpec (stem : String) : String :=
  ⟨stripEnds (spaceify (titleSpecCut stem.data))⟩

/-! ### Analyzer data model — database.py / analyzer.py

`MediaFile` carries the columns the analyzer reads.  Nullable columns are
`Option`; `file_hash` and `codec` are additionally tested with Python
truthiness by the analyzer, so `none` stands for their falsy values (`None`,
`""`).  `file_size` is always written by the scanner and is read bare by the
duplicate sort key, so it is a plain `Int`.  `MediaIssue` carries the fields
the analyzer sets when constructing an issue. -/

structure MediaFile where
  id : Int
  fileName : String
  fileSize : Int
  fileHash : Option String
  mediaType : Option String
  title : Option String
  season : Option Int
  episode : Option Int
  resolutionHeight : Option Int
  codec : Option String
  bitrate : Option Int
deriving DecidableEq

structure MediaIssue where
  mediaFileId : Int
  issueType : String
  severity : String
  description : String
  duplicateOfId : Option Int
deriving DecidableEq

/-- `MediaFile.resolution` (database.py:37-47) on a record; `none` models the
`TypeError` raised when `resolution_height` is `NULL`. -/
def MediaFile.resolution (f : MediaFile) : Option String :=
  resolutionLabel f.resolutionHeight

/-! ### Duplicate detection, exact pass — `MediaAnalyzer.find_duplicates`
(analyzer.py:34-70)

    hash_groups = defaultdict(list)
    for file in files:
        if file.file_hash:
            hash_groups[file.file_hash].append(file)
    for file_hash, duplicates in hash_groups.items():
        if len(duplicates) > 1:
            duplicates.sort(key=lambda f: (
                -(f.resolution_height or 0),
                -(f.bitrate or 0),
                f.file_size
            ), reverse=True)
            best_file = duplicates[0]
            for dup in duplicates[1:]:
                MediaIssue(media_file_id=dup.id, issue_type='duplicate',
                           severity='high',
                           description=f'Duplicate of {best_file.file_name}',
                           duplicate_of_id=best_file.id)

`dict` iterates keys in insertion order; `list.sort` is a stable sort, and
`reverse=True` makes it a stable sort into descending key order.  We model
the stable sort by insertion sort, whose output on a total preorder is the
same list. -/

/-- Python tuple `<=` on an `(Int, Int, Int)` key: lexicographic. -/
def tripleLe (a b : Int × Int × Int) : Bool :=
  decide (a.1 < b.1) ||
    (a.1 == b.1 && (decide (a.2.1 < b.2.1) ||
      (a.2.1 == b.2.1 && decide (a.2.2 ≤ b.2.2))))

/-- The `key=lambda f: (-(f.resolution_height or 0), -(f.bitrate or 0),
f.file_size)` sort key. -/
def dupSortKey (f : MediaFile) : Int × Int × Int :=
  (-(f.resolutionHeight.getD 0), -(f.bitrate.getD 0), f.fileSize)

/-- Stable insertion: place `x` before the first `y` with `pred x y`. -/
def stableInsert {α : Type} (pred : α → α → Bool) (x : α) : List α → List α
  | [] => [x]
  | y :: ys => if pred x y then x :: y :: ys else y :: stableInsert pred x ys

/-- Stable sort by `pred` (insertion sort): the order Python's stable
`list.sort` produces for a total preorder `pred`. -/
def stableSort {α : Type} (pred : α → α → Bool) : List α → List α
  | [] => []
  | x :: xs => stableInsert pred x (stableSort pred xs)

/-- `duplicates.sort(key=dupSortKey, reverse=True)`: stable, descending by
key, i.e. earlier-listed `a` stays before `b` exactly when
`dupSortKey b ≤ dupSortKey a`. -/
def pySortDesc (l : List MediaFile) : List MediaFile :=
  stableSort (fun a b => tripleLe (dupSortKey b) (dupSortKey a)) l

/-- `hash_groups`: association list of (hash, members) in key insertion
order, members in store order; records with falsy `file_hash` excluded. -/
def hashGroups (files : List MediaFile) : List (String × List MediaFile) :=
  files.foldl
    (fun acc f =>
      match f.fileHash with
      | none => acc
      | some h =>
          if (acc.map Prod.fst).contains h then
            acc.map (fun g => if g.1 == h then (g.1, g.2 ++ [f]) else g)
          else acc ++ [(h, [f])])
    []

/-- The exact (fingerprint-grouping) pass of `find_duplicates`. -/
def findDuplicatesExact (files : List MediaFile) : List MediaIssue :=
  (hashGroups files).flatMap
    (fun g =>
      if g.2.length > 1 then
        match pySortDesc g.2 with
        | best :: rest =>
            rest.map (fun dup =>
              { mediaFileId := dup.id
                issueType := "duplicate"
                severity := "high"
                description := "Duplicate of " ++ best.fileName
                duplicateOfId := some best.id })
        | [] => []
      else [])

/-! ### `MediaAnalyzer.find_low_resolution` (analyzer.py:106-125)

    files = query(MediaFile).filter(MediaFile.resolution_height < min).all()
    for file in files:
        MediaIssue(media_file_id=file.id, issue_type='low_res',
                   severity='high',
                   description=f'Resolution {h}p is below minimum {min}p')

SQL `NULL < min` is not true, so records with absent height are excluded by
the query filter. -/

/-- The query filter and issue construction for one record: `some` exactly
when the record passes `resolution_height < min` (so never for `NULL`
height). -/
def lowResIssueOf (minRes : Int) (f : MediaFile) : Option MediaIssue :=
  match f.resolutionHeight with
  | some h =>
      if h < minRes then
        some { mediaFileId := f.id
               issueType := "low_res"
               severity := "high"
               description := "Resolution " ++ toString h
                 ++ "p is below minimum " ++ toString minRes ++ "p"
               duplicateOfId := none }
      else none
  | none => none

def findLowResolution (minRes : Int) (files : List MediaFile) : List MediaIssue :=
  files.filterMap (lowResIssueOf minRes)

/-! ### `MediaAnalyzer.find_quality_issues` (analyzer.py:127-158)

    old_codecs = ['xvid', 'divx', 'mpeg2']
    for file in files:
        if file.codec and any(old in file.codec.lower() for old in old_codecs):
            MediaIssue(..., issue_type='quality', severity='medium',
                       description=f'Old codec: {file.codec}')
        if file.resolution_height == 1080 and file.bitrate:
            min_bitrate = config.get('quality.min_bitrate_1080p', 2000) * 1000
            if file.bitrate < min_bitrate:
                MediaIssue(..., issue_type='quality', severity='medium',
                           description=f'Low bitrate: {file.bitrate//1000} kbps')

`file.bitrate` truthiness: `None` and `0` both skip the bitrate check.
`minBitrateKbps` is the configured `quality.min_bitrate_1080p` (default
2000); Python's `//` agrees with `Int` division on the nonnegative bitrates
involved. -/

def oldCodecs : List String := ["xvid", "divx", "mpeg2"]

/-- `file.codec and any(old in file.codec.lower() for old in old_codecs)`
(`.lower()` modelled as per-character ASCII lowering; the blocklist entries
are ASCII). -/
def hasOldCodec (codec : Option String) : Bool :=
  match codec with
  | some c => oldCodecs.any (fun old => hasSubL old.data (c.data.map Char.toLower))
  | none => false

def findQualityIssues (minBitrateKbps : Int) (files : List MediaFile) : List MediaIssue :=
  files.flatMap
    (fun f =>
      (if hasOldCodec f.codec then
        [{ mediaFileId := f.id
           issueType := "quality"
           severity := "medium"
           description := "Old codec: " ++ f.codec.getD ""
           duplicateOfId := none }]
      else [])
      ++
      (match f.bitrate with
       | some b =>
           if f.resolutionHeight == some 1080 && !(b == 0)
               && decide (b < minBitrateKbps * 1000) then
             [{ mediaFileId := f.id
                issueType := "quality"
                severity := "medium"
                description := "Low bitrate: " ++ toString (b / 1000) ++ " kbps"
                duplicateOfId := none }]
           else []
       | none => []))

/-! ### `MediaAnalyzer.find_missing_episodes` (analyzer.py:160-190)

    tv_files = query(MediaFile).filter(media_type == 'tv',
                                       season.isnot(None),
                                       episode.isnot(None)).all()
    series_episodes = defaultdict(lambda: defaultdict(set))
    for file in tv_files:
        series_episodes[file.title][file.season].add(file.episode)
    for series, seasons in series_episodes.items():
        for season, episodes in seasons.items():
            if not episodes: continue
            min_ep, max_ep = min(episodes), max(episodes)
            expected = set(range(min_ep, max_ep + 1))
            missing_eps = expected - episodes
            if missing_eps:
                missing.append({'series': series, 'season': season,
                                'missing_episodes': sorted(missing_eps)})

The nested `defaultdict`s iterate titles in first-appearance order and, per
title, seasons in first-appearance order.  `sorted(expected - episodes)` is
the ascending list of integers of `[min_ep, max_ep]` not observed; the
duplicates a `list` (instead of the Python `set`) of episodes may hold do
not change `min`/`max`/membership.  After the query filter `season` and
`episode` are non-`NULL`; `getD 0` is the unreachable default. -/

/-- Records `find_missing_episodes` considers: the query filter. -/
def tvPred (f : MediaFile) : Bool :=
  f.mediaType == some "tv" && f.season.isSome && f.episode.isSome

/-- `sorted(set(range(min_ep, max_ep + 1)) - episodes)`. -/
def missingEps (eps : List Int) : List Int :=
  match eps with
  | [] => []
  | _ => (intRange (minL eps) (maxL eps)).filter (fun n => !eps.contains n)

/-- The gaps as the spec words them: the integers strictly inside
`[min, max]` that were not observed, in ascending order. -/
def specGaps (eps : List Int) : List Int :=
  (intRange (minL eps + 1) (maxL eps - 1)).filter (fun n => !eps.contains n)

structure SeriesGap where
  series : Option String
  season : Option Int
  missingEpisodes : List Int
deriving DecidableEq

def findMissingEpisodes (files : List MediaFile) : List SeriesGap :=
  let tv := files.filter tvPred
  (firstAppear (tv.map (·.title))).flatMap
    (fun t =>
      (firstAppear ((tv.filter (fun f => f.title == t)).map (·.season))).filterMap
        (fun s =>
          let eps := (tv.filter (fun f => f.title == t && f.season == s)).map
            (fun f => f.episode.getD 0)
          let m := missingEps eps
          if m.isEmpty then none else some ⟨t, s, m⟩))

/-! ### Media-track extraction — `MediaScanner._get_media_info`
(scanner.py:87-131)

    for track in media_info.tracks:
        if track.track_type == 'Video' and not video_track:
            video_track = track
        elif track.track_type == 'Audio' and not audio_track:
            audio_track = track
    if not video_track: return None
    duration = None
    if video_track.duration:
        try: duration = float(video_track.duration) / 1000
        except (ValueError, TypeError): duration = None
    result = {'resolution_width': width, 'resolution_height': height,
              'codec': codec_id or format, 'bitrate': bit_rate,
              'duration': duration}
    if audio_track:
        result['audio_codec'] = format or codec_id
        result['audio_channels'] = channel_s
        result['audio_language'] = language

The raw `duration` attribute is inspected only for truthiness and for
whether `float()` succeeds, so it is embedded as `RawDur`: `falsy` for
`None`/`0`/`""`, `malformed` for a truthy value `float()` raises on, and
`millis q` for a truthy value converting to the number `q` (duration
arithmetic is modelled with rationals).  `codecId`/`format` use `none` for
Python-falsy values so that `x or y` becomes an `Option` fallback. -/

inductive RawDur where
  | falsy
  | malformed
  | millis (q : ℚ)
deriving DecidableEq

structure Track where
  trackType : String
  width : Option Int
  height : Option Int
  codecId : Option String
  format : Option String
  bitRate : Option Int
  duration : RawDur
  channels : Option Int
  language : Option String
deriving DecidableEq

structure AudioAttrs where
  audioCodec : Option String
  audioChannels : Option Int
  audioLanguage : Option String
deriving DecidableEq

structure MediaAttrs where
  width : Option Int
  height : Option Int
  codec : Option String
  bitrate : Option Int
  duration : Option ℚ
  audio : Option AudioAttrs
deriving DecidableEq

/-- One step of the track-selection loop. -/
def pickStep (st : Option Track × Option Track) (t : Track) : Option Track × Option Track :=
  if t.trackType == "Video" && st.1.isNone then (some t, st.2)
  else if t.trackType == "Audio" && st.2.isNone then (st.1, some t)
  else st

/-- The track-selection loop: first video track and first audio track. -/
def pickTracks (tracks : List Track) : Option Track × Option Track :=
  tracks.foldl pickStep (none, none)

/-- `duration = float(raw) / 1000` with falsy and malformed raw values
yielding `None`. -/
def durationOf : RawDur → Option ℚ
  | .millis q => some (q / 1000)
  | _ => none

/-- `_get_media_info` on the container's declared track list (`none` is the
soft-failure `return None`). -/
def getMediaInfo (tracks : List Track) : Option MediaAttrs :=
  match pickTracks tracks with
  | (none, _) => none
  | (some v, au) =>
      some { width := v.width
             height := v.height
             codec := match v.codecId with | some c => some c | none => v.format
             bitrate := v.bitRate
             duration := durationOf v.duration
             audio :=
               match au with
               | none => none
               | some a =>
                   some { audioCodec := match a.format with
                            | some fo => some fo
                            | none => a.codecId
                          audioChannels := a.channels
                          audioLanguage := a.language } }

/-! ### Scan upsert loop — `cli.py scan` (cli.py:91-138)

    existing = session.query(MediaFile).filter_by(file_path=info['file_path']).first()
    if existing:
        for key, value in info.items():
            setattr(existing, key, value)
    else:
        media_file = MediaFile(**info)
        session.add(media_file)

run once per extracted `info` dict, in completion order; batching into
commits of `batch_size` does not change the final store contents.  An `info`
dict (scanner.py:44-67) always carries the core identity keys and carries
the media-attribute keys only when `_get_media_info` succeeded, and inside
those the audio keys only when an audio track existed — absent keys leave
the existing row's columns untouched.  Timestamp bookkeeping columns are
omitted: the scan loop never assigns them. -/

structure CoreInfo where
  filePath : String
  fileName : String
  fileSize : Int
  fileHash : Option String
  mediaType : String
  title : String
  year : Option Nat
  season : Option Nat
  episode : Option Nat
deriving DecidableEq

/-- One `file_info` dict produced by `_extract_file_info`. -/
structure ScanInfo where
  core : CoreInfo
  media : Option MediaAttrs
deriving DecidableEq

/-- A `media_files` row, as the scan loop sees it. -/
structure StoredRecord where
  core : CoreInfo
  width : Option Int
  height : Option Int
  codec : Option String
  bitrate : Option Int
  duration : Option ℚ
  audioCodec : Option String
  audioChannels : Option Int
  audioLanguage : Option String
deriving DecidableEq

/-- Overwrite the media-attribute columns present in a successful
`media_info` dict (audio columns only when audio keys are present). -/
def setMedia (r : StoredRecord) (m : MediaAttrs) : StoredRecord :=
  let r' := { r with width := m.width, height := m.height, codec := m.codec,
                     bitrate := m.bitrate, duration := m.duration }
  match m.audio with
  | none => r'
  | some a => { r' with audioCodec := a.audioCodec,
                        audioChannels := a.audioChannels,
                        audioLanguage := a.audioLanguage }

/-- `for key, value in info.items(): setattr(existing, key, value)`. -/
def applyInfo (r : StoredRecord) (i : ScanInfo) : StoredRecord :=
  let r' := { r with core := i.core }
  match i.media with
  | none => r'
  | some m => setMedia r' m

/-- `MediaFile(**info)`: columns for absent keys stay `NULL`. -/
def insertInfo (i : ScanInfo) : StoredRecord :=
  applyInfo { core := i.core, width := none, height := none, codec := none,
              bitrate := none, duration := none, audioCodec := none,
              audioChannels := none, audioLanguage := none } i

/-- Process one `info`: update the first row with its path in place, else
append a new row. -/
def upsert (s : List StoredRecord) (i : ScanInfo) : List StoredRecord :=
  match s with
  | [] => [insertInfo i]
  | r :: rest =>
      if r.core.filePath == i.core.filePath then applyInfo r i :: rest
      else r :: upsert rest i

/-- The whole scan write loop over the stream of extracted infos. -/
def scanFold (s : List StoredRecord) (infos : List ScanInfo) : List StoredRecord :=
  infos.foldl upsert s

/-- `query(MediaFile).filter_by(file_path=p).first()`. -/
def findPath (s : List StoredRecord) (p : String) : Option StoredRecord :=
  s.find? (fun r => r.core.filePath == p)


/-! ### Concrete example records used to instantiate the claims -/

/-- A record with every optional attribute absent. -/
def blankFile : MediaFile :=
  { id := 0
    fileName := ""
    fileSize := 1
    fileHash := none
    mediaType := none
    title := none
    season := none
    episode := none
    resolutionHeight := none
    codec := none
    bitrate := none }

/-- A 720p record (id 21) for the low-resolution witness. -/
def exLow720 : MediaFile :=
  { blankFile with
    id := 21
    fileName := "old.720.mkv"
    resolutionHeight := some 720 }

/-- A 1080p record (id 22) for the low-resolution witness. -/
def exOk1080 : MediaFile :=
  { blankFile with
    id := 22
    fileName := "new.1080.mkv"
    resolutionHeight := some 1080 }

/-- A 1080p record whose bitrate column holds 0: recorded, below any positive
floor, yet Python-falsy. -/
def exBitrate0 : MediaFile :=
  { blankFile with
    id := 31
    fileName := "zero.mkv"
    resolutionHeight := some 1080
    bitrate := some 0 }

/-- A 1080p XviD record at 1500 kbps: triggers both quality checks. -/
def exXvid : MediaFile :=
  { blankFile with
    id := 32
    fileName := "both.avi"
    resolutionHeight := some 1080
    codec := some "XviD"
    bitrate := some 1500000 }

/-- A `tv` record for series `t`, season `s`, episode `e`, with id `i`. -/
def mkTvEp (t : String) (s e i : Int) : MediaFile :=
  { blankFile with
    id := i
    fileName := "x"
    mediaType := some "tv"
    title := some t
    season := some s
    episode := some e }

/-- A record with absent height (C10 witness). -/
def exNoHeight : MediaFile :=
  { blankFile with id := 41, fileName := "noheight.mkv" }

/-- A record with height 1234 (C10 witness). -/
def exH1234 : MediaFile :=
  { blankFile with
    id := 42
    fileName := "h1234.mkv"
    resolutionHeight := some 1234 }

/-- An audio track declared first in a container (C7 witness). -/
def exAudioTrack : Track :=
  { trackType := "Audio"
    width := none
    height := none
    codecId := none
    format := some "AAC"
    bitRate := none
    duration := RawDur.falsy
    channels := some 2
    language := some "en" }

/-- The first-declared video track (C7 witness). -/
def exVideoTrack : Track :=
  { trackType := "Video"
    width := some 1920
    height := some 1080
    codecId := some "avc1"
    format := some "AVC"
    bitRate := some 5000000
    duration := RawDur.millis 5000
    channels := none
    language := none }

/-- A second, later video track that must be ignored (C7 witness). -/
def exVideoTrack2 : Track :=
  { trackType := "Video"
    width := some 640
    height := some 480
    codecId := none
    format := some "MPEG"
    bitRate := some 100
    duration := RawDur.millis 1000
    channels := none
    language := none }

/-- Core identity fields of one scanned file (C5 witness). -/
def exCoreA : CoreInfo :=
  { filePath := "/media/a.mkv"
    fileName := "a.mkv"
    fileSize := 10
    fileHash := some "h1"
    mediaType := "movie"
    title := "A"
    year := none
    season := none
    episode := none }

/-- A scanned info with no media attributes (C5 witness). -/
def exInfoA : ScanInfo :=
  { core := exCoreA, media := none }

/-- A scanned info for a second path, with media attributes (C5 witness). -/
def exInfoB : ScanInfo :=
  { core :=
      { exCoreA with
        filePath := "/media/b.mkv"
        fileName := "b.mkv"
        fileHash := some "h2" }
    media := some
      { width := some 1920
        height := some 1080
        codec := some "AVC"
        bitrate := some 5000000
        duration := some 5
        audio := none } }

/-! ## Theorems -/

/-- C1 (code bug, exact duplicate pass): at the spec's own three-record
example — one fingerprint "H", heights [720, 1080, 1080], bitrates
[absent, 3000, 5000] — `find_duplicates` designates the 720-height record
canonical and issues `duplicate`/`high` Issues on the two 1080-height
records referencing it.  The sort key already negates height and bitrate
for a descending order, and `reverse=True` reverses it again, so
`duplicates[0]` is the bottom-ranked member, not the top-ranked
1080-height/5000-bitrate record the claim (and spec) designate. -/
theorem claim_C1_exact_duplicate_canonical_bug :
    findDuplicatesExact
      [ { id := 1, fileName := "show.720.mkv", fileSize := 100,
          fileHash := some "H", mediaType := some "tv", title := some "Show",
          season := none, episode := none, resolutionHeight := some 720,
          codec := none, bitrate := none },
        { id := 2, fileName := "show.1080a.mkv", fileSize := 200,
          fileHash := some "H", mediaType := some "tv", title := some "Show",
          season := none, episode := none, resolutionHeight := some 1080,
          codec := none, bitrate := some 3000 },
        { id := 3, fileName := "show.1080b.mkv", fileSize := 300,
          fileHash := some "H", mediaType := some "tv", title := some "Show",
          season := none, episode := none, resolutionHeight := some 1080,
          codec := none, bitrate := some 5000 } ]
    = [ { mediaFileId := 2, issueType := "duplicate", severity := "high",
          description := "Duplicate of show.720.mkv", duplicateOfId := some 1 },
        { mediaFileId := 3, issueType := "duplicate", severity := "high",
          description := "Duplicate of show.720.mkv", duplicateOfId := some 1 } ] := by
  decide

/-- C9 (code bug, exact pass): for a two-record fingerprint group with
heights 720 and 1080, the single `duplicate` Issue targets the 1080-height
record and its `duplicate_of` references the 720-height record — a record
the claim's ranking (resolution height descending first) judges inferior,
not superior.  (The reference is still to a distinct record.) -/
theorem claim_C9_duplicate_reference_inferior_bug :
    findDuplicatesExact
      [ { id := 10, fileName := "q.720.mkv", fileSize := 100,
          fileHash := some "K", mediaType := some "tv", title := some "Q",
          season := none, episode := none, resolutionHeight := some 720,
          codec := none, bitrate := none },
        { id := 11, fileName := "q.1080.mkv", fileSize := 200,
          fileHash := some "K", mediaType := some "tv", title := some "Q",
          season := none, episode := none, resolutionHeight := some 1080,
          codec := none, bitrate := some 3000 } ]
    = [ { mediaFileId := 11, issueType := "duplicate", severity := "high",
          description := "Duplicate of q.720.mkv", duplicateOfId := some 10 } ]
    ∧ (720 : Int) < 1080 := by
  decide

/-- C3: the fingerprint depends on exactly the byte size, the first 8 KiB,
and — only above 16 KiB — the last 8 KiB: equal size and equal windows give
equal fingerprints regardless of other bytes; at or below 16 KiB the tail
window is not even read; fingerprinting is deterministic; the zero-byte
file is fingerprintable (hash of the size string alone plus an empty
read). -/
theorem claim_C3_fingerprint_windows :
    ∀ (H : List Nat → String) (c₁ c₂ : List Nat),
      (c₁.length = c₂.length → c₁.take 8192 = c₂.take 8192 →
        c₁.drop (c₁.length - 8192) = c₂.drop (c₂.length - 8192) →
        fingerprint H c₁ = fingerprint H c₂) ∧
      (c₁.length = c₂.length → c₁.length ≤ 8192 * 2 →
        c₁.take 8192 = c₂.take 8192 → fingerprint H c₁ = fingerprint H c₂) ∧
      (fingerprint H c₁ = fingerprint H c₁) ∧
      (fingerprint H [] = H (sizeSeed 0 ++ [] ++ [])) := by
  intro H c₁ c₂
  refine ⟨?_, ?_, rfl, rfl⟩
  · intro hlen htake hdrop
    simp only [fingerprint, hashInput]
    rw [htake, hdrop, hlen]
  · intro hlen hle htake
    simp only [fingerprint, hashInput]
    rw [htake, hlen]
    have hf : ¬ (c₂.length > 8192 * 2) := by omega
    simp [hf]

/-- Witness for C3: a 17000-byte all-zero file and a 17000-byte file whose
616 middle bytes differ collide, since their head and tail 8-KiB windows
agree. -/
theorem claim_C3_fingerprint_windows_witness :
    (List.replicate 17000 (0 : Nat)).length
        = (List.replicate 8192 (0 : Nat) ++ List.replicate 616 1
            ++ List.replicate 8192 0).length
    ∧ (List.replicate 17000 (0 : Nat)).take 8192
        = (List.replicate 8192 (0 : Nat) ++ List.replicate 616 1
            ++ List.replicate 8192 0).take 8192
    ∧ (List.replicate 17000 (0 : Nat)).drop ((List.replicate 17000 (0 : Nat)).length - 8192)
        = (List.replicate 8192 (0 : Nat) ++ List.replicate 616 1
            ++ List.replicate 8192 0).drop
            ((List.replicate 8192 (0 : Nat) ++ List.replicate 616 1
              ++ List.replicate 8192 0).length - 8192)
    ∧ fingerprint (fun l => toString l.length) (List.replicate 17000 0)
        = fingerprint (fun l => toString l.length)
            (List.replicate 8192 0 ++ List.replicate 616 1 ++ List.replicate 8192 0) := by
  have hlen : (List.replicate 17000 (0 : Nat)).length
      = (List.replicate 8192 (0 : Nat) ++ List.replicate 616 1
          ++ List.replicate 8192 0).length := by
    simp only [List.length_replicate, List.length_append]
  have htake : (List.replicate 17000 (0 : Nat)).take 8192
      = (List.replicate 8192 (0 : Nat) ++ List.replicate 616 1
          ++ List.replicate 8192 0).take 8192 := by
    rw [List.take_replicate, List.append_assoc,
      List.take_left' (by simp only [List.length_replicate])]
    norm_num
  have hmid : ((List.replicate 8192 (0 : Nat) ++ List.replicate 616 1)).length = 8808 := by
    simp only [List.length_append, List.length_replicate]
  have hdrop : (List.replicate 17000 (0 : Nat)).drop ((List.replicate 17000 (0 : Nat)).length - 8192)
      = (List.replicate 8192 (0 : Nat) ++ List.replicate 616 1
          ++ List.replicate 8192 0).drop
          ((List.replicate 8192 (0 : Nat) ++ List.replicate 616 1
            ++ List.replicate 8192 0).length - 8192) := by
    rw [← hlen]
    simp only [List.length_replicate]
    rw [List.drop_replicate, List.drop_left' hmid]
  exact ⟨hlen, htake, hdrop,
    (claim_C3_fingerprint_windows (fun l => toString l.length) _ _).1 hlen htake hdrop⟩

/-- C10: evaluating `MediaFile.resolution` with an absent height raises (the
`None >= 2160` comparison), modelled as `none`; with a present height it
totally classifies into "4K", "1080p", "720p", "480p" or "SD" by the
documented thresholds. -/
theorem claim_C10_resolution_none_raises :
    (∀ f : MediaFile, f.resolutionHeight = none → f.resolution = none) ∧
    (∀ (f : MediaFile) (h : Int), f.resolutionHeight = some h →
      ∃ lbl, f.resolution = some lbl
        ∧ lbl ∈ ["4K", "1080p", "720p", "480p", "SD"]
        ∧ ((lbl = "4K") ↔ 2160 ≤ h)
        ∧ ((lbl = "1080p") ↔ 1080 ≤ h ∧ h < 2160)
        ∧ ((lbl = "720p") ↔ 720 ≤ h ∧ h < 1080)
        ∧ ((lbl = "480p") ↔ 480 ≤ h ∧ h < 720)
        ∧ ((lbl = "SD") ↔ h < 480)) := by
  constructor
  · intro f hf
    simp [MediaFile.resolution, resolutionLabel, hf]
  · intro f h hf
    simp only [MediaFile.resolution, resolutionLabel, hf]
    split_ifs with h1 h2 h3 h4
    · exact ⟨"4K", rfl, by decide,
        iff_of_true rfl (by omega),
        iff_of_false (by decide) (by omega),
        iff_of_false (by decide) (by omega),
        iff_of_false (by decide) (by omega),
        iff_of_false (by decide) (by omega)⟩
    · exact ⟨"1080p", rfl, by decide,
        iff_of_false (by decide) (by omega),
        iff_of_true rfl (by omega),
        iff_of_false (by decide) (by omega),
        iff_of_false (by decide) (by omega),
        iff_of_false (by decide) (by omega)⟩
    · exact ⟨"720p", rfl, by decide,
        iff_of_false (by decide) (by omega),
        iff_of_false (by decide) (by omega),
        iff_of_true rfl (by omega),
        iff_of_false (by decide) (by omega),
        iff_of_false (by decide) (by omega)⟩
    · exact ⟨"480p", rfl, by decide,
        iff_of_false (by decide) (by omega),
        iff_of_false (by decide) (by omega),
        iff_of_false (by decide) (by omega),
        iff_of_true rfl (by omega),
        iff_of_false (by decide) (by omega)⟩
    · exact ⟨"SD", rfl, by decide,
        iff_of_false (by decide) (by omega),
        iff_of_false (by decide) (by omega),
        iff_of_false (by decide) (by omega),
        iff_of_false (by decide) (by omega),
        iff_of_true rfl (by omega)⟩

/-- Witness for C10: a record with absent height raises; one with height
1234 is classified "1080p". -/
theorem claim_C10_resolution_none_raises_witness :
    exNoHeight.resolutionHeight = none
    ∧ exNoHeight.resolution = none
    ∧ exH1234.resolutionHeight = some 1234
    ∧ ∃ lbl, exH1234.resolution = some lbl
        ∧ lbl ∈ ["4K", "1080p", "720p", "480p", "SD"]
        ∧ ((lbl = "4K") ↔ (2160 : Int) ≤ 1234)
        ∧ ((lbl = "1080p") ↔ (1080 : Int) ≤ 1234 ∧ (1234 : Int) < 2160)
        ∧ ((lbl = "720p") ↔ (720 : Int) ≤ 1234 ∧ (1234 : Int) < 1080)
        ∧ ((lbl = "480p") ↔ (480 : Int) ≤ 1234 ∧ (1234 : Int) < 720)
        ∧ ((lbl = "SD") ↔ (1234 : Int) < 480) :=
  ⟨rfl, claim_C10_resolution_none_raises.1 _ rfl, rfl,
    claim_C10_resolution_none_raises.2 exH1234 1234 rfl⟩

/-- C2 counterexample: the claim describes the title as the stem truncated
at the lexically first match among the four patterns; on stem
"[1080p] Show" that rule truncates at the bracketed tag at position 0 and
yields "", but the code's four successive `re.split` truncations first cut
at the 4-digit run inside the bracket, destroying the bracket match, and
yield "[". -/
theorem claim_C2_title_first_match_counterexample :
    extractTitle "[1080p] Show" = "["
    ∧ titleSpec "[1080p] Show" = ""
    ∧ extractTitle "[1080p] Show" ≠ titleSpec "[1080p] Show" := by
  decide

/-! ### Leftmost-match lemmas for the filename scans -/

/-- If `firstMatchAux` finds `i`, then `p` holds at `i`, `i` is in range, and
`p` fails at every scanned offset before `i`. -/
theorem firstMatchAux_some {p : List Char → Nat → Bool} {s : List Char} :
    ∀ (fuel start i : Nat), firstMatchAux p s fuel start = some i →
      p s i = true ∧ start ≤ i ∧ ∀ j, start ≤ j → j < i → p s j = false := by
  intro fuel
  induction fuel with
  | zero => intro start i h; simp [firstMatchAux] at h
  | succ n ih =>
      intro start i h
      simp only [firstMatchAux] at h
      by_cases hp : p s start = true
      · rw [if_pos hp] at h
        injection h with h'
        subst h'
        exact ⟨hp, Nat.le_refl _, fun j hj1 hj2 => absurd hj1 (by omega)⟩
      · rw [if_neg hp] at h
        obtain ⟨h1, h2, h3⟩ := ih (start + 1) i h
        refine ⟨h1, by omega, fun j hj1 hj2 => ?_⟩
        rcases Nat.eq_or_lt_of_le hj1 with he | hl
        · rw [← he]
          cases hb : p s start
          · rfl
          · exact absurd hb hp
        · exact h3 j (by omega) hj2

/-- If `firstMatchAux` finds nothing, `p` fails at every scanned offset. -/
theorem firstMatchAux_none {p : List Char → Nat → Bool} {s : List Char} :
    ∀ (fuel start : Nat), firstMatchAux p s fuel start = none →
      ∀ j, start ≤ j → j < start + fuel → p s j = false := by
  intro fuel
  induction fuel with
  | zero => intro start _ j hj1 hj2; omega
  | succ n ih =>
      intro start h j hj1 hj2
      simp only [firstMatchAux] at h
      by_cases hp : p s start = true
      · rw [if_pos hp] at h
        exact Option.noConfusion h
      · rw [if_neg hp] at h
        rcases Nat.eq_or_lt_of_le hj1 with he | hl
        · rw [← he]
          cases hb : p s start
          · rfl
          · exact absurd hb hp
        · exact ih (start + 1) h j (by omega) (by omega)

/-- `firstMatch p s = some i` iff `p` matches at `i` and nowhere earlier
(for patterns that can only match inside the string). -/
theorem firstMatch_some_iff {p : List Char → Nat → Bool} {s : List Char}
    (hp : ∀ j, p s j = true → j < s.length) (i : Nat) :
    firstMatch p s = some i ↔ (p s i = true ∧ ∀ j < i, p s j = false) := by
  constructor
  · intro h
    obtain ⟨h1, _, h3⟩ := firstMatchAux_some s.length 0 i h
    exact ⟨h1, fun j hj => h3 j (Nat.zero_le j) hj⟩
  · rintro ⟨hi, hmin⟩
    cases hfm : firstMatch p s with
    | none =>
        have hfalse := firstMatchAux_none s.length 0 hfm i (Nat.zero_le i)
          (by have := hp i hi; omega)
        rw [hfalse] at hi
        exact Bool.noConfusion hi
    | some k =>
        obtain ⟨h1, _, h3⟩ := firstMatchAux_some s.length 0 k hfm
        have hik : ¬ i < k := fun hlt => by
          rw [h3 i (Nat.zero_le i) hlt] at hi; exact Bool.noConfusion hi
        have hki : ¬ k < i := fun hlt => by
          rw [hmin k hlt] at h1; exact Bool.noConfusion h1
        have hik' : i = k := by omega
        rw [hik']

/-- `firstMatch p s = none` iff `p` matches nowhere. -/
theorem firstMatch_none_iff {p : List Char → Nat → Bool} {s : List Char}
    (hp : ∀ j, p s j = true → j < s.length) :
    firstMatch p s = none ↔ ∀ j, p s j = false := by
  constructor
  · intro h j
    by_cases hj : j < s.length
    · exact firstMatchAux_none s.length 0 h j (Nat.zero_le j) (by omega)
    · cases hb : p s j
      · rfl
      · exact absurd (hp j hb) hj
  · intro h
    cases hfm : firstMatch p s with
    | none => rfl
    | some k =>
        obtain ⟨h1, _, _⟩ := firstMatchAux_some s.length 0 k hfm
        rw [h k] at h1
        exact Bool.noConfusion h1

/-- A pattern returning `false` on an empty tail can only match inside the
string. -/
theorem matchPos_lt {p : List Char → Nat → Bool}
    (h0 : ∀ (t : List Char) (j : Nat), t.drop j = [] → p t j = false)
    (s : List Char) (j : Nat) (hj : p s j = true) : j < s.length := by
  by_contra hge
  have hd : s.drop j = [] := List.drop_eq_nil_of_le (by omega)
  rw [h0 s j hd] at hj
  exact Bool.noConfusion hj

theorem yearAt_drop_nil : ∀ (t : List Char) (j : Nat), t.drop j = [] → yearAt t j = false := by
  intro t j h
  simp [yearAt, h]

theorem sTokenAt_drop_nil : ∀ (t : List Char) (j : Nat), t.drop j = [] → sTokenAt t j = false := by
  intro t j h
  simp [sTokenAt, h]

theorem eTokenAt_drop_nil : ∀ (t : List Char) (j : Nat), t.drop j = [] → eTokenAt t j = false := by
  intro t j h
  simp [eTokenAt, h]

/-- `yearAt` only matches inside the string. -/
theorem yearAt_lt (t : List Char) (j : Nat) (hj : yearAt t j = true) : j < t.length :=
  matchPos_lt yearAt_drop_nil t j hj

/-- `sTokenAt` only matches inside the string. -/
theorem sTokenAt_lt (t : List Char) (j : Nat) (hj : sTokenAt t j = true) : j < t.length :=
  matchPos_lt sTokenAt_drop_nil t j hj

/-- `eTokenAt` only matches inside the string. -/
theorem eTokenAt_lt (t : List Char) (j : Nat) (hj : eTokenAt t j = true) : j < t.length :=
  matchPos_lt eTokenAt_drop_nil t j hj

/-- Each `re.split(...)[0]` truncation yields a `take` of its input. -/
theorem cutAt_is_take (p : List Char → Nat → Bool) (s : List Char) :
    ∃ k, cutAt p s = s.take k := by
  unfold cutAt
  cases h : firstMatch p s with
  | some i => exact ⟨i, rfl⟩
  | none => exact ⟨s.length, (List.take_length s).symm⟩

/-- C2 (amended): the four identity fields are independent leftmost-match
scans over the stem — year is the value of the leftmost `(19|20)\d{2}`
match, season the value of the leftmost `[Ss]\d{1,2}` match, episode the
value of the leftmost `[Ee]\d{1,3}` match, each absent when its pattern
never matches — and the title is the stem truncated *successively* by
`re.split` at the first 4-digit run, then the first `S##E##` token, then
the first bracketed tag, then the first parenthesized tag (a prefix of the
stem; this coincides with a single cut at the lexically first match except
when an earlier-applied pattern's match lies inside a later pattern's, as
in the counterexample), with `.`/`_` replaced by spaces and the result
trimmed.  Concretely, "Show.Name.S02E05.1080p" yields title "Show Name",
season 2, episode 5 and no year, and "Movie.Title.2019.1080p" yields title
"Movie Title", year 2019 and no season/episode. -/
theorem claim_C2_filename_identity_amended :
    (extractTitle "Show.Name.S02E05.1080p" = "Show Name"
      ∧ extractSeason "Show.Name.S02E05.1080p" = some 2
      ∧ extractEpisode "Show.Name.S02E05.1080p" = some 5
      ∧ extractYear "Show.Name.S02E05.1080p" = none)
    ∧ (extractTitle "Movie.Title.2019.1080p" = "Movie Title"
      ∧ extractYear "Movie.Title.2019.1080p" = some 2019
      ∧ extractSeason "Movie.Title.2019.1080p" = none
      ∧ extractEpisode "Movie.Title.2019.1080p" = none)
    ∧ (∀ stem : String, ∃ k, titleCore stem.data = stem.data.take k)
    ∧ (∀ (stem : String) (y : Nat), extractYear stem = some y ↔
        ∃ i, yearAt stem.data i = true ∧ (∀ j < i, yearAt stem.data j = false)
          ∧ y = yearValAt stem.data i)
    ∧ (∀ stem : String, extractYear stem = none ↔ ∀ i, yearAt stem.data i = false)
    ∧ (∀ (stem : String) (n : Nat), extractSeason stem = some n ↔
        ∃ i, sTokenAt stem.data i = true ∧ (∀ j < i, sTokenAt stem.data j = false)
          ∧ n = seasonValAt stem.data i)
    ∧ (∀ stem : String, extractSeason stem = none ↔ ∀ i, sTokenAt stem.data i = false)
    ∧ (∀ (stem : String) (n : Nat), extractEpisode stem = some n ↔
        ∃ i, eTokenAt stem.data i = true ∧ (∀ j < i, eTokenAt stem.data j = false)
          ∧ n = episodeValAt stem.data i)
    ∧ (∀ stem : String, extractEpisode stem = none ↔ ∀ i, eTokenAt stem.data i = false) := by
  refine ⟨by decide, by decide, ?_, ?_, ?_, ?_, ?_, ?_, ?_⟩
  · intro stem
    obtain ⟨k1, e1⟩ := cutAt_is_take digit4At stem.data
    obtain ⟨k2, e2⟩ := cutAt_is_take seTokenAt (cutAt digit4At stem.data)
    obtain ⟨k3, e3⟩ := cutAt_is_take bracketAt (cutAt seTokenAt (cutAt digit4At stem.data))
    obtain ⟨k4, e4⟩ :=
      cutAt_is_take parenAt (cutAt bracketAt (cutAt seTokenAt (cutAt digit4At stem.data)))
    unfold titleCore
    rw [e4, e3, e2, e1]
    simp only [List.take_take]
    exact ⟨_, rfl⟩
  · intro stem y
    constructor
    · intro h
      unfold extractYear at h
      cases hfm : firstMatch yearAt stem.data with
      | none => rw [hfm] at h; exact Option.noConfusion h
      | some i =>
          rw [hfm] at h
          injection h with h'
          obtain ⟨h1, hmin⟩ := (firstMatch_some_iff (yearAt_lt stem.data) i).mp hfm
          exact ⟨i, h1, hmin, h'.symm⟩
    · rintro ⟨i, h1, hmin, hy⟩
      have hfm := (firstMatch_some_iff (yearAt_lt stem.data) i).mpr ⟨h1, hmin⟩
      unfold extractYear
      rw [hfm, hy]
  · intro stem
    constructor
    · intro h
      unfold extractYear at h
      cases hfm : firstMatch yearAt stem.data with
      | none => exact (firstMatch_none_iff (yearAt_lt stem.data)).mp hfm
      | some i => rw [hfm] at h; exact Option.noConfusion h
    · intro h
      have hfm := (firstMatch_none_iff (yearAt_lt stem.data)).mpr h
      unfold extractYear
      rw [hfm]
  · intro stem n
    constructor
    · intro h
      unfold extractSeason at h
      cases hfm : firstMatch sTokenAt stem.data with
      | none => rw [hfm] at h; exact Option.noConfusion h
      | some i =>
          rw [hfm] at h
          injection h with h'
          obtain ⟨h1, hmin⟩ := (firstMatch_some_iff (sTokenAt_lt stem.data) i).mp hfm
          exact ⟨i, h1, hmin, h'.symm⟩
    · rintro ⟨i, h1, hmin, hn⟩
      have hfm := (firstMatch_some_iff (sTokenAt_lt stem.data) i).mpr ⟨h1, hmin⟩
      unfold extractSeason
      rw [hfm, hn]
  · intro stem
    constructor
    · intro h
      unfold extractSeason at h
      cases hfm : firstMatch sTokenAt stem.data with
      | none => exact (firstMatch_none_iff (sTokenAt_lt stem.data)).mp hfm
      | some i => rw [hfm] at h; exact Option.noConfusion h
    · intro h
      have hfm := (firstMatch_none_iff (sTokenAt_lt stem.data)).mpr h
      unfold extractSeason
      rw [hfm]
  · intro stem n
    constructor
    · intro h
      unfold extractEpisode at h
      cases hfm : firstMatch eTokenAt stem.data with
      | none => rw [hfm] at h; exact Option.noConfusion h
      | some i =>
          rw [hfm] at h
          injection h with h'
          obtain ⟨h1, hmin⟩ := (firstMatch_some_iff (eTokenAt_lt stem.data) i).mp hfm
          exact ⟨i, h1, hmin, h'.symm⟩
    · rintro ⟨i, h1, hmin, hn⟩
      have hfm := (firstMatch_some_iff (eTokenAt_lt stem.data) i).mpr ⟨h1, hmin⟩
      unfold extractEpisode
      rw [hfm, hn]
  · intro stem
    constructor
    · intro h
      unfold extractEpisode at h
      cases hfm : firstMatch eTokenAt stem.data with
      | none => exact (firstMatch_none_iff (eTokenAt_lt stem.data)).mp hfm
      | some i => rw [hfm] at h; exact Option.noConfusion h
    · intro h
      have hfm := (firstMatch_none_iff (eTokenAt_lt stem.data)).mpr h
      unfold extractEpisode
      rw [hfm]

/-- Witness for C2: on "Show.Name.S02E05.1080p" the season characterization
produces the leftmost `S\d` offset with value 2. -/
theorem claim_C2_filename_identity_amended_witness :
    extractSeason "Show.Name.S02E05.1080p" = some 2
    ∧ ∃ i, sTokenAt "Show.Name.S02E05.1080p".data i = true
        ∧ (∀ j < i, sTokenAt "Show.Name.S02E05.1080p".data j = false)
        ∧ 2 = seasonValAt "Show.Name.S02E05.1080p".data i :=
  ⟨by decide,
    (claim_C2_filename_identity_amended.2.2.2.2.2.1 "Show.Name.S02E05.1080p" 2).mp (by decide)⟩

/-! ### min/max and integer-range lemmas for the gap computation -/

theorem foldl_min_mem : ∀ (xs : List Int) (x : Int), xs.foldl min x ∈ x :: xs := by
  intro xs
  induction xs with
  | nil => intro x; simp [List.foldl]
  | cons y ys ih =>
      intro x
      show List.foldl min (min x y) ys ∈ x :: y :: ys
      have h := ih (min x y)
      rcases List.mem_cons.mp h with h1 | h1
      · rcases min_choice x y with hm | hm
        · rw [h1, hm]
          exact List.mem_cons_self _ _
        · rw [h1, hm]
          exact List.mem_cons_of_mem _ (List.mem_cons_self _ _)
      · exact List.mem_cons_of_mem _ (List.mem_cons_of_mem _ h1)

theorem foldl_min_le : ∀ (xs : List Int) (x y : Int), y ∈ x :: xs → xs.foldl min x ≤ y := by
  intro xs
  induction xs with
  | nil =>
      intro x y hy
      simp at hy
      simp [List.foldl, hy]
  | cons z zs ih =>
      intro x y hy
      rcases List.mem_cons.mp hy with h1 | h1
      · subst h1
        calc zs.foldl min (min y z) ≤ min y z := ih (min y z) _ (List.mem_cons_self _ _)
          _ ≤ y := min_le_left _ _
      · rcases List.mem_cons.mp h1 with h2 | h2
        · subst h2
          calc zs.foldl min (min x y) ≤ min x y := ih (min x y) _ (List.mem_cons_self _ _)
            _ ≤ y := min_le_right _ _
        · exact ih (min x z) y (List.mem_cons_of_mem _ h2)

theorem foldl_max_mem : ∀ (xs : List Int) (x : Int), xs.foldl max x ∈ x :: xs := by
  intro xs
  induction xs with
  | nil => intro x; simp [List.foldl]
  | cons y ys ih =>
      intro x
      show List.foldl max (max x y) ys ∈ x :: y :: ys
      have h := ih (max x y)
      rcases List.mem_cons.mp h with h1 | h1
      · rcases max_choice x y with hm | hm
        · rw [h1, hm]
          exact List.mem_cons_self _ _
        · rw [h1, hm]
          exact List.mem_cons_of_mem _ (List.mem_cons_self _ _)
      · exact List.mem_cons_of_mem _ (List.mem_cons_of_mem _ h1)

theorem le_foldl_max : ∀ (xs : List Int) (x y : Int), y ∈ x :: xs → y ≤ xs.foldl max x := by
  intro xs
  induction xs with
  | nil =>
      intro x y hy
      simp at hy
      simp [List.foldl, hy]
  | cons z zs ih =>
      intro x y hy
      rcases List.mem_cons.mp hy with h1 | h1
      · subst h1
        calc y ≤ max y z := le_max_left _ _
          _ ≤ zs.foldl max (max y z) := ih (max y z) _ (List.mem_cons_self _ _)
      · rcases List.mem_cons.mp h1 with h2 | h2
        · subst h2
          calc y ≤ max x y := le_max_right _ _
            _ ≤ zs.foldl max (max x y) := ih (max x y) _ (List.mem_cons_self _ _)
        · exact ih (max x z) y (List.mem_cons_of_mem _ h2)

/-- `min(episodes)` is an observed episode. -/
theorem minL_mem (eps : List Int) (h : eps ≠ []) : minL eps ∈ eps := by
  cases eps with
  | nil => exact absurd rfl h
  | cons x xs => exact foldl_min_mem xs x

/-- `max(episodes)` is an observed episode. -/
theorem maxL_mem (eps : List Int) (h : eps ≠ []) : maxL eps ∈ eps := by
  cases eps with
  | nil => exact absurd rfl h
  | cons x xs => exact foldl_max_mem xs x

theorem minL_le (eps : List Int) (y : Int) (hy : y ∈ eps) : minL eps ≤ y := by
  cases eps with
  | nil => simp at hy
  | cons x xs => exact foldl_min_le xs x y hy

theorem le_maxL (eps : List Int) (y : Int) (hy : y ∈ eps) : y ≤ maxL eps := by
  cases eps with
  | nil => simp at hy
  | cons x xs => exact le_foldl_max xs x y hy

theorem intRange_eq_nil {a b : Int} (h : b < a) : intRange a b = [] := by
  unfold intRange
  rw [Int.toNat_of_nonpos (by omega)]
  simp

theorem intRange_cons {a b : Int} (h : a ≤ b) : intRange a b = a :: intRange (a + 1) b := by
  unfold intRange
  have h2 : (b + 1 - a).toNat = (b - a).toNat + 1 := by omega
  have h3 : b + 1 - (a + 1) = b - a := by ring
  rw [h2, h3, List.range_succ_eq_map]
  simp only [List.map_cons, List.map_map]
  congr 1
  · simp
  · apply List.map_congr_left
    intro k _
    simp only [Function.comp_apply]
    push_cast
    ring

theorem intRange_concat {a b : Int} (h : a ≤ b) : intRange a b = intRange a (b - 1) ++ [b] := by
  unfold intRange
  have h2 : (b + 1 - a).toNat = (b - a).toNat + 1 := by omega
  have h3 : b - 1 + 1 - a = b - a := by ring
  rw [h2, h3, List.range_succ, List.map_append]
  congr 1
  simp only [List.map_cons, List.map_nil, List.cons.injEq, and_true]
  have h4 : ((b - a).toNat : Int) = b - a := Int.toNat_of_nonneg (by omega)
  rw [h4]
  ring

/-- The code's gap list (`sorted(set(range(min, max+1)) - episodes)`) equals
the spec's strict-interior gap list: the endpoints are observed, so
filtering them out of the closed range leaves exactly the open range's
unobserved integers. -/
theorem missingEps_eq_specGaps (eps : List Int) (h : eps ≠ []) :
    missingEps eps = specGaps eps := by
  have hminmem : eps.contains (minL eps) = true :=
    List.elem_iff.mpr (minL_mem eps h)
  have hmaxmem : eps.contains (maxL eps) = true :=
    List.elem_iff.mpr (maxL_mem eps h)
  have hmm : minL eps ≤ maxL eps :=
    minL_le eps (maxL eps) (maxL_mem eps h)
  have hbody : missingEps eps
      = (intRange (minL eps) (maxL eps)).filter (fun n => !eps.contains n) := by
    cases eps with
    | nil => exact absurd rfl h
    | cons x xs => rfl
  rw [hbody, intRange_cons hmm]
  rw [List.filter_cons]
  simp only [hminmem, Bool.not_true, Bool.false_eq_true, if_false]
  rcases eq_or_lt_of_le hmm with he | hlt
  · rw [specGaps, ← he]
    rw [intRange_eq_nil (by omega), intRange_eq_nil (by omega)]
  · rw [intRange_concat (by omega), List.filter_append]
    simp only [List.filter_cons, hmaxmem, Bool.not_true, Bool.false_eq_true, if_false,
      List.filter_nil, List.append_nil]
    rfl

/-- C4: `find_missing_episodes` considers exactly the `tv`-kind records with
season and episode present (filtering them first changes nothing); per
(title, season) group the reported list is exactly the ascending integers
strictly between the observed minimum and maximum that were not observed; a
single-episode group reports nothing; episodes {1,2,4,6} yield [3,5] and
{1,2,3} yield nothing. -/
theorem claim_C4_missing_episodes :
    (∀ files : List MediaFile,
      findMissingEpisodes files = findMissingEpisodes (files.filter tvPred))
    ∧ (∀ eps : List Int, eps ≠ [] → missingEps eps = specGaps eps)
    ∧ (∀ e : Int, missingEps [e] = [])
    ∧ findMissingEpisodes
        [mkTvEp "X" 1 1 1, mkTvEp "X" 1 2 2, mkTvEp "X" 1 4 3, mkTvEp "X" 1 6 4]
        = [⟨some "X", some 1, [3, 5]⟩]
    ∧ findMissingEpisodes [mkTvEp "Y" 1 1 1, mkTvEp "Y" 1 2 2, mkTvEp "Y" 1 3 3] = [] := by
  refine ⟨?_, missingEps_eq_specGaps, ?_, by decide, by decide⟩
  · intro files
    unfold findMissingEpisodes
    rw [List.filter_filter]
    simp only [Bool.and_self]
  · intro e
    have h1 : missingEps [e] = (intRange e e).filter (fun n => !([e].contains n)) := rfl
    rw [h1, intRange_cons (le_refl e), intRange_eq_nil (by omega)]
    simp [List.filter_cons]

/-- Witness for C4: the gap characterization applied to the observed episode
list [1, 2, 4, 6]. -/
theorem claim_C4_missing_episodes_witness :
    ([1, 2, 4, 6] : List Int) ≠ []
    ∧ missingEps [1, 2, 4, 6] = specGaps [1, 2, 4, 6]
    ∧ missingEps [1, 2, 4, 6] = [3, 5] :=
  ⟨by decide, claim_C4_missing_episodes.2.1 [1, 2, 4, 6] (by decide), by decide⟩

/-! ### Lemmas for the low-resolution check -/

/-- A produced low-resolution issue targets the record it came from. -/
theorem lowResIssueOf_id (minRes : Int) (f : MediaFile) (i : MediaIssue)
    (h : lowResIssueOf minRes f = some i) : i.mediaFileId = f.id := by
  unfold lowResIssueOf at h
  split at h
  · split at h
    · injection h with h'
      rw [← h']
    · exact Option.noConfusion h
  · exact Option.noConfusion h

/-- Restricting the produced issues to one record id is the same as
restricting the scanned records to that id first. -/
theorem findLowRes_restrict (minRes : Int) (k : Int) :
    ∀ files : List MediaFile,
      (findLowResolution minRes files).filter (fun i => i.mediaFileId == k)
        = findLowResolution minRes (files.filter (fun g => g.id == k)) := by
  intro files
  induction files with
  | nil => rfl
  | cons g gs ih =>
      cases hg : lowResIssueOf minRes g with
      | none =>
          simp only [findLowResolution, List.filterMap_cons, List.filter_cons, hg]
          by_cases hk : (g.id == k) = true
          · rw [if_pos hk]
            simp only [List.filterMap_cons, hg]
            exact ih
          · rw [if_neg hk]
            exact ih
      | some i =>
          have hid : i.mediaFileId = g.id := lowResIssueOf_id minRes g i hg
          simp only [findLowResolution, List.filterMap_cons, List.filter_cons, hg, hid]
          by_cases hk : (g.id == k) = true
          · rw [if_pos hk, if_pos hk]
            simp only [List.filterMap_cons, hg]
            exact congrArg (i :: ·) ih
          · rw [if_neg hk, if_neg hk]
            exact ih

/-- With unique ids, restricting the store to a present record's id leaves
exactly that record. -/
theorem filter_id_single :
    ∀ (files : List MediaFile) (f : MediaFile),
      f ∈ files → (files.map (·.id)).Nodup →
      files.filter (fun g => g.id == f.id) = [f] := by
  intro files
  induction files with
  | nil => intro f hf _; simp at hf
  | cons g gs ih =>
      intro f hf hnd
      simp only [List.map_cons, List.nodup_cons] at hnd
      obtain ⟨hgid, hnd'⟩ := hnd
      rcases List.mem_cons.mp hf with he | hm
      · subst he
        have hself : (f.id == f.id) = true := beq_self_eq_true _
        have hnil : gs.filter (fun g => g.id == f.id) = [] := by
          apply List.filter_eq_nil_iff.mpr
          intro x hx hbeq
          have hxid : x.id = f.id := beq_iff_eq.mp hbeq
          exact hgid (hxid ▸ List.mem_map_of_mem (·.id) hx)
        rw [List.filter_cons, if_pos hself, hnil]
      · have hne : ¬ ((g.id == f.id) = true) := by
          rw [beq_iff_eq]
          intro hcontra
          exact hgid (hcontra ▸ List.mem_map_of_mem (·.id) hm)
        rw [List.filter_cons, if_neg hne]
        exact ih f hm hnd'

/-- C6: with unique record ids, a record with present height strictly below
the configured minimum receives exactly one Issue — kind `low_res`,
severity `high`, description naming the height and the configured minimum —
and a record with height at or above the minimum receives none. -/
theorem claim_C6_low_resolution (minRes : Int) (files : List MediaFile)
    (f : MediaFile) (h : Int) (hmem : f ∈ files)
    (hnd : (files.map (·.id)).Nodup) (hh : f.resolutionHeight = some h) :
    (findLowResolution minRes files).filter (fun i => i.mediaFileId == f.id)
      = (if h < minRes then
          [{ mediaFileId := f.id
             issueType := "low_res"
             severity := "high"
             description := "Resolution " ++ toString h
               ++ "p is below minimum " ++ toString minRes ++ "p"
             duplicateOfId := none }]
        else []) := by
  rw [findLowRes_restrict, filter_id_single files f hmem hnd]
  simp only [findLowResolution, List.filterMap_cons, List.filterMap_nil, lowResIssueOf, hh]
  by_cases hlt : h < minRes
  · rw [if_pos hlt, if_pos hlt]
  · rw [if_neg hlt, if_neg hlt]

/-- Witness for C6: in a store with a 720p record (id 21) and a 1080p record
(id 22) under minimum 1080, the 720p record gets exactly its one `low_res`
Issue and the 1080p record gets none. -/
theorem claim_C6_low_resolution_witness :
    exLow720 ∈ [exLow720, exOk1080]
    ∧ ([exLow720, exOk1080].map (·.id)).Nodup
    ∧ exLow720.resolutionHeight = some 720
    ∧ exOk1080.resolutionHeight = some 1080
    ∧ (findLowResolution 1080 [exLow720, exOk1080]).filter
        (fun i => i.mediaFileId == exLow720.id)
      = [{ mediaFileId := 21
           issueType := "low_res"
           severity := "high"
           description := "Resolution 720p is below minimum 1080p"
           duplicateOfId := none }]
    ∧ (findLowResolution 1080 [exLow720, exOk1080]).filter
        (fun i => i.mediaFileId == exOk1080.id)
      = [] :=
  ⟨by decide, by decide, rfl, rfl,
    claim_C6_low_resolution 1080 [exLow720, exOk1080] exLow720 720
      (by decide) (by decide) rfl,
    claim_C6_low_resolution 1080 [exLow720, exOk1080] exOk1080 1080
      (by decide) (by decide) rfl⟩

/-- C8 counterexample: a 1080p record whose recorded bitrate is 0 — present
in the store and below the default 2 000 000 b/s floor — receives no
`quality` Issue, because `if file.bitrate:` treats the recorded 0 as falsy
and skips the bitrate check. -/
theorem claim_C8_bitrate_zero_counterexample :
    exBitrate0.resolutionHeight = some 1080
    ∧ exBitrate0.bitrate = some 0
    ∧ (0 : Int) < 2000 * 1000
    ∧ findQualityIssues 2000 [exBitrate0] = [] := by
  decide

/-- C8 (amended): every record whose video height is exactly 1080 and whose
recorded bitrate is nonzero and falls below the configured floor (default
2000 kbps, compared in bits per second) yields a `quality` Issue of
severity `medium`, independently of the codec-blocklist check — the
membership holds for any codec value — and a single record (1080p, XviD,
1500 kbps) receives Issues from both checks in the same pass. -/
theorem claim_C8_low_bitrate_quality_amended :
    (∀ (mbr : Int) (files : List MediaFile) (f : MediaFile) (b : Int),
      f ∈ files → f.resolutionHeight = some 1080 → f.bitrate = some b →
      b ≠ 0 → b < mbr * 1000 →
      ({ mediaFileId := f.id
         issueType := "quality"
         severity := "medium"
         description := "Low bitrate: " ++ toString (b / 1000) ++ " kbps"
         duplicateOfId := none } : MediaIssue) ∈ findQualityIssues mbr files)
    ∧ findQualityIssues 2000 [exXvid]
        = [ { mediaFileId := 32
              issueType := "quality"
              severity := "medium"
              description := "Old codec: XviD"
              duplicateOfId := none },
            { mediaFileId := 32
              issueType := "quality"
              severity := "medium"
              description := "Low bitrate: 1500 kbps"
              duplicateOfId := none } ] := by
  constructor
  · intro mbr files f b hmem hh hbr hb0 hlt
    unfold findQualityIssues
    apply List.mem_flatMap.mpr
    refine ⟨f, hmem, ?_⟩
    apply List.mem_append.mpr
    right
    simp only [hbr]
    have hcond : (f.resolutionHeight == some 1080 && !(b == 0)
        && decide (b < mbr * 1000)) = true := by
      rw [hh]
      simp [hb0, hlt]
    rw [if_pos hcond]
    exact List.mem_singleton.mpr rfl
  · decide

/-- Witness for C8: the 1080p/1500-kbps record with an XviD codec satisfies
every hypothesis and its low-bitrate Issue is among the produced Issues. -/
theorem claim_C8_low_bitrate_quality_amended_witness :
    exXvid ∈ [exXvid]
    ∧ exXvid.resolutionHeight = some 1080
    ∧ exXvid.bitrate = some 1500000
    ∧ (1500000 : Int) ≠ 0
    ∧ (1500000 : Int) < 2000 * 1000
    ∧ ({ mediaFileId := 32
         issueType := "quality"
         severity := "medium"
         description := "Low bitrate: 1500 kbps"
         duplicateOfId := none } : MediaIssue) ∈ findQualityIssues 2000 [exXvid] :=
  ⟨by decide, rfl, rfl, by decide, by decide,
    claim_C8_low_bitrate_quality_amended.1 2000 [exXvid] exXvid 1500000
      (by decide) rfl rfl (by decide) (by decide)⟩

/-! ### Lemmas for the media-track extraction -/

/-- The selection loop keeps an already-chosen track and otherwise selects
the first track of each kind. -/
theorem pickTracks_fold (ts : List Track) :
    ∀ (vt au : Option Track),
      ts.foldl pickStep (vt, au)
        = (vt.or (ts.find? (fun t => t.trackType == "Video")),
           au.or (ts.find? (fun t => t.trackType == "Audio"))) := by
  induction ts with
  | nil =>
      intro vt au
      simp [Option.or_none]
  | cons t ts ih =>
      intro vt au
      show List.foldl pickStep (pickStep (vt, au) t) ts = _
      by_cases hv : (t.trackType == "Video") = true
      · have heq : t.trackType = "Video" := beq_iff_eq.mp hv
        have ha : (t.trackType == "Audio") = false := by rw [heq]; decide
        have hfv : List.find? (fun x => x.trackType == "Video") (t :: ts)
            = some t := List.find?_cons_of_pos _ hv
        have hfa : List.find? (fun x => x.trackType == "Audio") (t :: ts)
            = List.find? (fun x => x.trackType == "Audio") ts :=
          List.find?_cons_of_neg _ (by simp [ha])
        cases vt with
        | none =>
            have hstep : pickStep (none, au) t = (some t, au) := by
              simp [pickStep, hv]
            rw [hstep, ih, hfv, hfa]
            rfl
        | some v =>
            have hstep : pickStep (some v, au) t = (some v, au) := by
              simp [pickStep, hv, ha]
            rw [hstep, ih, hfv, hfa]
            rfl
      · have hfv : List.find? (fun x => x.trackType == "Video") (t :: ts)
            = List.find? (fun x => x.trackType == "Video") ts :=
          List.find?_cons_of_neg _ hv
        by_cases ha : (t.trackType == "Audio") = true
        · have hfa : List.find? (fun x => x.trackType == "Audio") (t :: ts)
              = some t := List.find?_cons_of_pos _ ha
          cases au with
          | none =>
              have hstep : pickStep (vt, none) t = (vt, some t) := by
                simp [pickStep, hv, ha]
              rw [hstep, ih, hfv, hfa]
              rfl
          | some a =>
              have hstep : pickStep (vt, some a) t = (vt, some a) := by
                simp [pickStep, hv, ha]
              rw [hstep, ih, hfv, hfa]
              rfl
        · have hfa : List.find? (fun x => x.trackType == "Audio") (t :: ts)
              = List.find? (fun x => x.trackType == "Audio") ts :=
            List.find?_cons_of_neg _ ha
          have hstep : pickStep (vt, au) t = (vt, au) := by
            simp [pickStep, hv, ha]
          rw [hstep, ih, hfv, hfa]

/-- C7: media-track extraction fails softly — no video track means `none`;
with a first video track the extraction succeeds, the duration is the
track's raw duration divided by 1000 when it converts, and a malformed (or
falsy) raw duration is coerced to absent rather than raising; the selected
attributes come from the first-declared video track, and once a video and
an audio track have appeared, any later tracks are ignored. -/
theorem claim_C7_media_track_extraction :
    (∀ tracks : List Track,
      (∀ t ∈ tracks, ¬ (t.trackType = "Video")) → getMediaInfo tracks = none)
    ∧ (∀ (tracks : List Track) (v : Track),
        tracks.find? (fun t => t.trackType == "Video") = some v →
        ∃ attrs, getMediaInfo tracks = some attrs
          ∧ (∀ q : ℚ, v.duration = RawDur.millis q → attrs.duration = some (q / 1000))
          ∧ (v.duration = RawDur.malformed → attrs.duration = none)
          ∧ (v.duration = RawDur.falsy → attrs.duration = none)
          ∧ attrs.width = v.width ∧ attrs.height = v.height ∧ attrs.bitrate = v.bitRate)
    ∧ (∀ (ts extra : List Track),
        (∃ t ∈ ts, t.trackType = "Video") → (∃ t ∈ ts, t.trackType = "Audio") →
        getMediaInfo (ts ++ extra) = getMediaInfo ts) := by
  refine ⟨?_, ?_, ?_⟩
  · intro tracks hno
    have hf : tracks.find? (fun t => t.trackType == "Video") = none := by
      apply List.find?_eq_none.mpr
      intro x hx
      simp only [beq_iff_eq]
      exact fun hc => hno x hx hc
    unfold getMediaInfo pickTracks
    rw [pickTracks_fold tracks none none, hf]
    rfl
  · intro tracks v hv
    unfold getMediaInfo pickTracks
    rw [pickTracks_fold tracks none none, hv]
    refine ⟨_, rfl, ?_, ?_, ?_, rfl, rfl, rfl⟩
    · intro q hq
      simp [durationOf, hq]
    · intro hq
      simp [durationOf, hq]
    · intro hq
      simp [durationOf, hq]
  · intro ts extra hvid haud
    have h1 : (ts.find? (fun t => t.trackType == "Video")).isSome := by
      apply List.find?_isSome.mpr
      obtain ⟨t, ht, hty⟩ := hvid
      exact ⟨t, ht, by simp [hty]⟩
    have h2 : (ts.find? (fun t => t.trackType == "Audio")).isSome := by
      apply List.find?_isSome.mpr
      obtain ⟨t, ht, hty⟩ := haud
      exact ⟨t, ht, by simp [hty]⟩
    obtain ⟨v, hv⟩ := Option.isSome_iff_exists.mp h1
    obtain ⟨a, ha⟩ := Option.isSome_iff_exists.mp h2
    unfold getMediaInfo pickTracks
    rw [pickTracks_fold ts none none, pickTracks_fold (ts ++ extra) none none,
      List.find?_append, List.find?_append, hv, ha]
    rfl

/-- Witness for C7: a container declaring [audio, video, video] finds the
first video track first, extraction succeeds with its attributes, and its
5000 ms duration is normalized to 5 s. -/
theorem claim_C7_media_track_extraction_witness :
    ([exAudioTrack, exVideoTrack, exVideoTrack2].find?
        (fun t => t.trackType == "Video") = some exVideoTrack)
    ∧ (∃ attrs,
        getMediaInfo [exAudioTrack, exVideoTrack, exVideoTrack2] = some attrs
          ∧ (∀ q : ℚ, exVideoTrack.duration = RawDur.millis q →
              attrs.duration = some (q / 1000))
          ∧ (exVideoTrack.duration = RawDur.malformed → attrs.duration = none)
          ∧ (exVideoTrack.duration = RawDur.falsy → attrs.duration = none)
          ∧ attrs.width = exVideoTrack.width
          ∧ attrs.height = exVideoTrack.height
          ∧ attrs.bitrate = exVideoTrack.bitRate) :=
  ⟨by decide,
    claim_C7_media_track_extraction.2.1 [exAudioTrack, exVideoTrack, exVideoTrack2]
      exVideoTrack (by decide)⟩

/-! ### Lemmas for the scan upsert loop -/

/-- Applying an info sets the row's path to the info's path. -/
theorem applyInfo_path (r : StoredRecord) (i : ScanInfo) :
    (applyInfo r i).core.filePath = i.core.filePath := by
  cases hm : i.media with
  | none => simp [applyInfo, hm]
  | some m => cases ha : m.audio <;> simp [applyInfo, setMedia, hm, ha]

/-- An inserted row carries the info's path. -/
theorem insertInfo_path (i : ScanInfo) :
    (insertInfo i).core.filePath = i.core.filePath :=
  applyInfo_path _ i

/-- Overwriting a row twice with the same info is the same as once. -/
theorem applyInfo_applyInfo (r : StoredRecord) (i : ScanInfo) :
    applyInfo (applyInfo r i) i = applyInfo r i := by
  cases hm : i.media with
  | none => simp [applyInfo, hm]
  | some m => cases ha : m.audio <;> simp [applyInfo, setMedia, hm, ha]

/-- The paths after an upsert: unchanged when the path existed, appended
otherwise. -/
theorem upsert_paths (s : List StoredRecord) (i : ScanInfo) :
    (upsert s i).map (fun r => r.core.filePath)
      = if i.core.filePath ∈ s.map (fun r => r.core.filePath)
        then s.map (fun r => r.core.filePath)
        else s.map (fun r => r.core.filePath) ++ [i.core.filePath] := by
  induction s with
  | nil =>
      simp [upsert, insertInfo_path]
  | cons r rest ih =>
      by_cases hb : (r.core.filePath == i.core.filePath) = true
      · have heq : r.core.filePath = i.core.filePath := beq_iff_eq.mp hb
        have hmem : i.core.filePath ∈ (r :: rest).map (fun r => r.core.filePath) := by
          simp [heq.symm]
        rw [show upsert (r :: rest) i = applyInfo r i :: rest from by
          simp [upsert, hb], if_pos hmem]
        simp [applyInfo_path, heq]
      · have hne : r.core.filePath ≠ i.core.filePath := by
          intro hcontra
          exact hb (beq_iff_eq.mpr hcontra)
        rw [show upsert (r :: rest) i = r :: upsert rest i from by
          simp [upsert, hb]]
        by_cases hmem : i.core.filePath ∈ rest.map (fun r => r.core.filePath)
        · have hmem' : i.core.filePath ∈ (r :: rest).map (fun r => r.core.filePath) := by
            simp [hmem]
          rw [if_pos hmem']
          simp only [List.map_cons]
          rw [ih, if_pos hmem]
        · have hmem' : i.core.filePath ∉ (r :: rest).map (fun r => r.core.filePath) := by
            simp only [List.map_cons, List.mem_cons]
            rintro (hc | hc)
            · exact hne hc.symm
            · exact hmem hc
          rw [if_neg hmem']
          simp only [List.map_cons]
          rw [ih, if_neg hmem]
          rfl

/-- An upsert preserves uniqueness of the path key. -/
theorem upsert_nodup (s : List StoredRecord) (i : ScanInfo)
    (h : (s.map (fun r => r.core.filePath)).Nodup) :
    ((upsert s i).map (fun r => r.core.filePath)).Nodup := by
  rw [upsert_paths]
  by_cases hmem : i.core.filePath ∈ s.map (fun r => r.core.filePath)
  · rw [if_pos hmem]
    exact h
  · rw [if_neg hmem]
    rw [List.nodup_append]
    exact ⟨h, List.nodup_singleton _, by simpa using fun hc => hmem hc⟩

/-- The whole scan loop preserves uniqueness of the path key. -/
theorem scanFold_nodup (infos : List ScanInfo) :
    ∀ s : List StoredRecord, (s.map (fun r => r.core.filePath)).Nodup →
      ((scanFold s infos).map (fun r => r.core.filePath)).Nodup := by
  induction infos with
  | nil => intro s h; exact h
  | cons i rest ih =>
      intro s h
      exact ih (upsert s i) (upsert_nodup s i h)

/-- After an upsert, looking up the info's path finds the freshly written
row. -/
theorem upsert_findPath_self (s : List StoredRecord) (i : ScanInfo) :
    findPath (upsert s i) i.core.filePath
      = some (match findPath s i.core.filePath with
              | some r => applyInfo r i
              | none => insertInfo i) := by
  induction s with
  | nil =>
      have hp : ((insertInfo i).core.filePath == i.core.filePath) = true := by
        rw [insertInfo_path]
        exact beq_self_eq_true _
      have hfind : List.find? (fun r => r.core.filePath == i.core.filePath) [insertInfo i]
          = some (insertInfo i) := List.find?_cons_of_pos _ hp
      simp only [upsert, findPath]
      rw [hfind]
      rfl
  | cons r rest ih =>
      by_cases hb : (r.core.filePath == i.core.filePath) = true
      · rw [show upsert (r :: rest) i = applyInfo r i :: rest from by simp [upsert, hb]]
        have hp : ((applyInfo r i).core.filePath == i.core.filePath) = true := by
          rw [applyInfo_path]
          exact beq_self_eq_true _
        have h1 : List.find? (fun x => x.core.filePath == i.core.filePath)
            (applyInfo r i :: rest) = some (applyInfo r i) :=
          List.find?_cons_of_pos _ hp
        have h2 : List.find? (fun x => x.core.filePath == i.core.filePath) (r :: rest)
            = some r := List.find?_cons_of_pos _ hb
        simp only [findPath]
        rw [h1, h2]
      · rw [show upsert (r :: rest) i = r :: upsert rest i from by simp [upsert, hb]]
        have h1 : List.find? (fun x => x.core.filePath == i.core.filePath)
            (r :: upsert rest i)
            = List.find? (fun x => x.core.filePath == i.core.filePath) (upsert rest i) :=
          List.find?_cons_of_neg _ hb
        have h2 : List.find? (fun x => x.core.filePath == i.core.filePath) (r :: rest)
            = List.find? (fun x => x.core.filePath == i.core.filePath) rest :=
          List.find?_cons_of_neg _ hb
        simp only [findPath] at ih ⊢
        rw [h1, h2]
        exact ih

/-- An upsert leaves lookups of every other path unchanged. -/
theorem upsert_findPath_other (s : List StoredRecord) (i : ScanInfo) (p : String)
    (hne : p ≠ i.core.filePath) :
    findPath (upsert s i) p = findPath s p := by
  induction s with
  | nil =>
      have hp : ¬ (((insertInfo i).core.filePath == p) = true) := by
        rw [insertInfo_path]
        simp only [beq_iff_eq]
        exact fun hc => hne hc.symm
      have hfind : List.find? (fun r => r.core.filePath == p) [insertInfo i]
          = List.find? (fun r => r.core.filePath == p) [] :=
        List.find?_cons_of_neg _ hp
      simp only [upsert, findPath]
      rw [hfind]
  | cons r rest ih =>
      by_cases hb : (r.core.filePath == i.core.filePath) = true
      · rw [show upsert (r :: rest) i = applyInfo r i :: rest from by simp [upsert, hb]]
        have hp : ¬ (((applyInfo r i).core.filePath == p) = true) := by
          rw [applyInfo_path]
          simp only [beq_iff_eq]
          exact fun hc => hne hc.symm
        have hp' : ¬ ((r.core.filePath == p) = true) := by
          have heq : r.core.filePath = i.core.filePath := beq_iff_eq.mp hb
          rw [heq]
          simp only [beq_iff_eq]
          exact fun hc => hne hc.symm
        have h1 : List.find? (fun x => x.core.filePath == p) (applyInfo r i :: rest)
            = List.find? (fun x => x.core.filePath == p) rest :=
          List.find?_cons_of_neg _ hp
        have h2 : List.find? (fun x => x.core.filePath == p) (r :: rest)
            = List.find? (fun x => x.core.filePath == p) rest :=
          List.find?_cons_of_neg _ hp'
        simp only [findPath]
        rw [h1, h2]
      · rw [show upsert (r :: rest) i = r :: upsert rest i from by simp [upsert, hb]]
        simp only [findPath] at ih ⊢
        by_cases hr : (r.core.filePath == p) = true
        · have h1 : List.find? (fun x => x.core.filePath == p) (r :: upsert rest i)
              = some r := List.find?_cons_of_pos _ hr
          have h2 : List.find? (fun x => x.core.filePath == p) (r :: rest)
              = some r := List.find?_cons_of_pos _ hr
          rw [h1, h2]
        · have h1 : List.find? (fun x => x.core.filePath == p) (r :: upsert rest i)
              = List.find? (fun x => x.core.filePath == p) (upsert rest i) :=
            List.find?_cons_of_neg _ hr
          have h2 : List.find? (fun x => x.core.filePath == p) (r :: rest)
              = List.find? (fun x => x.core.filePath == p) rest :=
            List.find?_cons_of_neg _ hr
          rw [h1, h2]
          exact ih

/-- A whole scan pass leaves lookups of untouched paths unchanged. -/
theorem scanFold_findPath_other (infos : List ScanInfo) :
    ∀ (s : List StoredRecord) (p : String),
      (∀ i ∈ infos, i.core.filePath ≠ p) →
      findPath (scanFold s infos) p = findPath s p := by
  induction infos with
  | nil => intro s p _; rfl
  | cons i rest ih =>
      intro s p hne
      have h1 : findPath (scanFold (upsert s i) rest) p = findPath (upsert s i) p :=
        ih (upsert s i) p (fun j hj => hne j (List.mem_cons_of_mem _ hj))
      have h2 : findPath (upsert s i) p = findPath s p :=
        upsert_findPath_other s i p (fun hc => hne i (List.mem_cons_self _ _) hc.symm)
      exact h1.trans h2

/-- Upserting an info whose row is already in its post-write state is a
no-op. -/
theorem upsert_absorb (s : List StoredRecord) (i : ScanInfo) (r : StoredRecord)
    (hf : findPath s i.core.filePath = some r) (ha : applyInfo r i = r) :
    upsert s i = s := by
  induction s with
  | nil => exact Option.noConfusion hf
  | cons g rest ih =>
      by_cases hb : (g.core.filePath == i.core.filePath) = true
      · have hfg : findPath (g :: rest) i.core.filePath = some g := by
          simp only [findPath]
          exact List.find?_cons_of_pos _ hb
        rw [hfg] at hf
        injection hf with hf'
        rw [show upsert (g :: rest) i = applyInfo g i :: rest from by simp [upsert, hb],
          hf', ha]
      · have hfg : findPath (g :: rest) i.core.filePath
            = findPath rest i.core.filePath := by
          simp only [findPath]
          exact List.find?_cons_of_neg _ (by simp [hb])
        rw [hfg] at hf
        rw [show upsert (g :: rest) i = g :: upsert rest i from by simp [upsert, hb],
          ih hf]

/-- A scan pass all of whose infos are already absorbed is a no-op. -/
theorem scanFold_absorb (infos : List ScanInfo) :
    ∀ s : List StoredRecord,
      (∀ i ∈ infos, ∃ r, findPath s i.core.filePath = some r ∧ applyInfo r i = r) →
      scanFold s infos = s := by
  induction infos with
  | nil => intro s _; rfl
  | cons i rest ih =>
      intro s h
      obtain ⟨r, hf, ha⟩ := h i (List.mem_cons_self _ _)
      have hu : upsert s i = s := upsert_absorb s i r hf ha
      have : scanFold s (i :: rest) = scanFold s rest := by
        show scanFold (upsert s i) rest = scanFold s rest
        rw [hu]
      rw [this]
      exact ih s (fun j hj => h j (List.mem_cons_of_mem _ hj))

/-- After a scan pass over infos with pairwise-distinct paths, every info's
row is in its post-write state. -/
theorem scanFold_stable (infos : List ScanInfo) :
    ∀ s : List StoredRecord, ((infos.map (fun i => i.core.filePath)).Nodup) →
      ∀ i ∈ infos, ∃ r, findPath (scanFold s infos) i.core.filePath = some r
        ∧ applyInfo r i = r := by
  induction infos with
  | nil => intro s _ i hi; simp at hi
  | cons j rest ih =>
      intro s hnd i hi
      simp only [List.map_cons, List.nodup_cons] at hnd
      obtain ⟨hjn, hnd'⟩ := hnd
      rcases List.mem_cons.mp hi with he | hm
      · subst he
        have hne : ∀ j' ∈ rest, j'.core.filePath ≠ i.core.filePath := by
          intro j' hj' hcontra
          exact hjn (hcontra ▸ List.mem_map_of_mem _ hj')
        have hpres : findPath (scanFold (upsert s i) rest) i.core.filePath
            = findPath (upsert s i) i.core.filePath :=
          scanFold_findPath_other rest (upsert s i) i.core.filePath hne
        have hgoal : findPath (scanFold s (i :: rest)) i.core.filePath
            = findPath (upsert s i) i.core.filePath := hpres
        rw [hgoal, upsert_findPath_self]
        cases hf : findPath s i.core.filePath with
        | none => exact ⟨insertInfo i, rfl, applyInfo_applyInfo _ i⟩
        | some r => exact ⟨applyInfo r i, rfl, applyInfo_applyInfo r i⟩
      · exact ih (upsert s j) hnd' i hm

/-- C5: the store is keyed by file path — scanning an unchanged directory
(a stream of infos with pairwise-distinct paths) a second time rewrites
every row to the value it already has, leaving the store identical (same
record count, same field values), and a store with unique paths keeps
unique paths, so no two rows with the same path ever exist. -/
theorem claim_C5_scan_idempotent (store : List StoredRecord) (infos : List ScanInfo)
    (hinf : (infos.map (fun i => i.core.filePath)).Nodup)
    (hst : (store.map (fun r => r.core.filePath)).Nodup) :
    scanFold (scanFold store infos) infos = scanFold store infos
    ∧ ((scanFold store infos).map (fun r => r.core.filePath)).Nodup :=
  ⟨scanFold_absorb infos (scanFold store infos) (scanFold_stable infos store hinf),
    scanFold_nodup infos store hst⟩

/-- Witness for C5: two infos with distinct paths scanned into an empty
store; re-scanning them changes nothing and the resulting paths are
unique. -/
theorem claim_C5_scan_idempotent_witness :
    (([exInfoA, exInfoB].map (fun i => i.core.filePath)).Nodup)
    ∧ ((([] : List StoredRecord).map (fun r => r.core.filePath)).Nodup)
    ∧ (scanFold (scanFold [] [exInfoA, exInfoB]) [exInfoA, exInfoB]
        = scanFold [] [exInfoA, exInfoB]
      ∧ ((scanFold [] [exInfoA, exInfoB]).map (fun r => r.core.filePath)).Nodup) :=
  ⟨by decide, by decide,
    claim_C5_scan_idempotent [] [exInfoA, exInfoB] (by decide) (by decide)⟩
